import Mathlib

/-!
Shallow embedding of `src/main/frontend/public/models/blender-export.py`:
a Blender batch script that merges a Mixamo T-pose character with a fixed
set of swimming animation files and exports one `swimmer.glb`.

The Blender data model the script touches (objects, action datablocks,
NLA tracks, modifiers, selection) is embedded as explicit state, and each
host operator (`bpy.ops.*`) the script calls becomes a pure state
transformer.  Collection iteration in the Python source is modelled over
a snapshot of the collection.  The FBX importer is modelled as
deterministically creating the file's objects, leaving exactly them
selected, binding at most one action per object and creating no NLA
tracks, which is the importer behaviour the script relies on.
-/

namespace BlenderExport

/-- Blender object types relevant to the script (`obj.type`). -/
inductive ObjType where
  | ARMATURE
  | MESH
  | OTHER
deriving DecidableEq

/-- An action datablock (`bpy.data.actions` entry): a name plus abstract
keyframe content standing for the curves. -/
structure Action where
  name : String
  keyframes : Nat
deriving DecidableEq

abbrev ActId := Nat
abbrev ObjId := Nat

/-- An NLA strip, as made by `track.strips.new(name, start, action)`. -/
structure NlaStrip where
  name : String
  start : Int
  action : ActId
deriving DecidableEq

/-- An NLA track on an object's animation data. -/
structure NlaTrack where
  name : String
  mute : Bool
  strips : List NlaStrip
deriving DecidableEq

/-- `obj.animation_data`: the bound action slot plus the NLA tracks. -/
structure AnimData where
  action : Option ActId
  nla_tracks : List NlaTrack
deriving DecidableEq

/-- A modifier on a mesh object (`mesh.modifiers` entry). -/
structure Modifier where
  name : String
  mtype : String
  ratio : Rat
deriving DecidableEq

/-- A scene object (`bpy.data.objects` entry).  Mesh and armature
datablocks are object-owned in this embedding: `polygons` stands for
`len(obj.data.polygons)`, and `applied` records the modifiers that have
been destructively baked into the mesh data, in application order. -/
structure Obj where
  id : ObjId
  name : String
  otype : ObjType
  parent : Option ObjId
  animation_data : Option AnimData
  polygons : Nat
  modifiers : List Modifier
  applied : List Modifier
deriving DecidableEq

/-- The host scene state the script manipulates. -/
structure Scene where
  objects : List Obj
  actions : List (ActId × Action)
  selected : List ObjId
  active : Option ObjId
deriving DecidableEq

def emptyScene : Scene := ⟨[], [], [], none⟩

def lookupObj (s : Scene) (i : ObjId) : Option Obj :=
  s.objects.find? (fun o => decide (o.id = i))

def lookupAction (s : Scene) (a : ActId) : Option Action :=
  (s.actions.find? (fun p => decide (p.1 = a))).map Prod.snd

def updateObj (i : ObjId) (f : Obj → Obj) (s : Scene) : Scene :=
  { s with objects := s.objects.map (fun o => if o.id = i then f o else o) }

def freshObjId (s : Scene) : ObjId := (s.objects.map Obj.id).foldr max 0 + 1

def freshActId (s : Scene) : ActId := (s.actions.map Prod.fst).foldr max 0 + 1

/-- `bpy.context.selected_objects`. -/
def Scene.selectedObjects (s : Scene) : List Obj :=
  s.objects.filter (fun o => s.selected.contains o.id)

/-- Action references held by an object: its bound action and the actions
of its NLA strips.  These are what give an action datablock its users. -/
def Obj.actionRefs (o : Obj) : List ActId :=
  match o.animation_data with
  | none => []
  | some ad =>
      (match ad.action with | some a => [a] | none => []) ++
        (ad.nla_tracks.map (fun t => t.strips.map NlaStrip.action)).flatten

/-- `block.users` for an action datablock. -/
def actionUsers (s : Scene) (a : ActId) : Nat :=
  ((s.objects.map Obj.actionRefs).flatten).count a

/-- `clear_scene()`: select all, delete every object, then purge
zero-user datablocks (mesh and armature data are object-owned here, so
deleting every object removes them; zero-user actions are filtered out). -/
def clear_scene (s : Scene) : Scene :=
  let s1 : Scene := { s with selected := s.objects.map Obj.id }
  let s2 : Scene := { s1 with objects := [], selected := [], active := none }
  { s2 with actions := s2.actions.filter (fun p => decide (actionUsers s2 p.1 ≠ 0)) }

/-- The bound action carried by an object inside an FBX file. -/
structure ImpAction where
  name : String
  keyframes : Nat
deriving DecidableEq

/-- An object as described inside an FBX file: `parentIdx` is an index
into the file's object list; `hasAnimData` and `boundAction` describe
the animation data the importer creates for it. -/
structure ImpObj where
  name : String
  otype : ObjType
  parentIdx : Option Nat
  hasAnimData : Bool
  boundAction : Option ImpAction
  polygons : Nat
  modifiers : List Modifier
deriving DecidableEq

/-- Parsed content of an FBX file on disk. -/
structure FbxFile where
  objects : List ImpObj
deriving DecidableEq

/-- The directory content: full path ↦ FBX file content. -/
structure FS where
  files : List (String × FbxFile)
deriving DecidableEq

def FS.lookup (fs : FS) (p : String) : Option FbxFile :=
  (fs.files.find? (fun q => decide (q.1 = p))).map Prod.snd

/-- `os.path.exists` restricted to the input files. -/
def os_path_exists (fs : FS) (p : String) : Bool := (FS.lookup fs p).isSome

/-- `os.path.join(dir, f)`. -/
def pathJoin (d f : String) : String := d ++ "/" ++ f

/-- Create the objects and action datablocks of an FBX file, with object
ids allocated from `oid` and action ids from `aid`; `base` maps in-file
parent indices to object ids. -/
def importObjs (base : Nat) : Nat → Nat → List ImpObj → List Obj × List (ActId × Action)
  | _, _, [] => ([], [])
  | oid, aid, x :: rest =>
      let acts : List (ActId × Action) :=
        if x.hasAnimData then
          match x.boundAction with
          | some a => [(aid, ⟨a.name, a.keyframes⟩)]
          | none => []
        else []
      let ob : Obj :=
        { id := oid
          name := x.name
          otype := x.otype
          parent := x.parentIdx.map (fun j => base + j)
          animation_data :=
            if x.hasAnimData then some ⟨x.boundAction.map (fun _ => aid), []⟩
            else none
          polygons := x.polygons
          modifiers := x.modifiers
          applied := [] }
      let r := importObjs base (oid + 1) (aid + acts.length) rest
      (ob :: r.1, acts ++ r.2)

/-- `bpy.ops.import_scene.fbx(filepath=...)`: create the file's objects
and action datablocks with fresh ids and leave exactly the new objects
selected. -/
def import_scene_fbx (f : FbxFile) (s : Scene) : Scene :=
  let r := importObjs (freshObjId s) (freshObjId s) (freshActId s) f.objects
  { objects := s.objects ++ r.1
    actions := s.actions ++ r.2
    selected := r.1.map Obj.id
    active := none }

def isArmature (o : Obj) : Bool := decide (o.otype = ObjType.ARMATURE)

/-- `import_fbx(filepath)`: import the file and return the first armature
among the selected (newly imported) objects, if any. -/
def import_fbx (f : FbxFile) (s : Scene) : Scene × Option ObjId :=
  let s1 := import_scene_fbx f s
  (s1, ((Scene.selectedObjects s1).find? isArmature).map Obj.id)

/-- `target_armature.animation_data_create()` guarded by
`if not target_armature.animation_data`. -/
def animation_data_create (o : Obj) : Obj :=
  if o.animation_data.isSome then o
  else { o with animation_data := some ⟨none, []⟩ }

/-- The muted single-strip track built by `extract_animation`:
`track.name = action_name`, one strip `strips.new(action_name, 0, act)`,
`track.mute = True`. -/
def newTrack (nm : String) (act : ActId) : NlaTrack := ⟨nm, true, [⟨nm, 0, act⟩]⟩

def addTrack (nm : String) (act : ActId) (o : Obj) : Obj :=
  { o with animation_data :=
      (o.animation_data.map
        (fun ad => { ad with nla_tracks := ad.nla_tracks ++ [newTrack nm act] })) }

/-- The removal loop at the end of `extract_animation`: every object in
the `bpy.context.selected_objects` snapshot is removed from
`bpy.data.objects` (`do_unlink=True`). -/
def removeSelected (s : Scene) : Scene :=
  { s with objects := s.objects.filter (fun o => !(s.selected.contains o.id)),
           selected := [] }

/-- `extract_animation(fbx_path, action_name, target_armature)`, with the
file's parsed content passed alongside its path.  Returns the new scene
and the lines printed. -/
def extract_animation (f : FbxFile) (fbx_path action_name : String)
    (target : ObjId) (s : Scene) : Scene × List String :=
  let s1 := import_scene_fbx f s
  match (Scene.selectedObjects s1).find? isArmature with
  | none => (s1, ["Warning: No armature found in " ++ fbx_path])
  | some imp =>
      match imp.animation_data.bind AnimData.action with
      | some origId =>
          let orig := (lookupAction s1 origId).getD ⟨"", 0⟩
          let newId := freshActId s1
          let s2 : Scene :=
            { s1 with actions := s1.actions ++ [(newId, { orig with name := action_name })] }
          let s3 := updateObj target animation_data_create s2
          let s4 := updateObj target (addTrack action_name newId) s3
          (removeSelected s4, ["Added animation: " ++ action_name])
      | none => (removeSelected s1, [])

/-- `bpy.ops.object.modifier_apply(modifier=nm)`: bake the named modifier
into the mesh data and drop it from the stack. -/
def applyModifierByName (nm : String) (o : Obj) : Obj :=
  match o.modifiers.find? (fun m => decide (m.name = nm)) with
  | some m =>
      { o with modifiers := o.modifiers.eraseP (fun m2 => decide (m2.name = nm)),
               applied := o.applied ++ [m] }
  | none => o

/-- Modifier names are unique per object; `modifier_add` suffixes the
default name when it is already taken. -/
def uniqueModName (nm : String) (ms : List Modifier) : String :=
  if ms.any (fun m => decide (m.name = nm)) then nm ++ ".001" else nm

def modifyFirstNamed (nm : String) (f : Modifier → Modifier) : List Modifier → List Modifier
  | [] => []
  | m :: ms => if m.name = nm then f m :: ms else m :: modifyFirstNamed nm f ms

/-- The body of the `optimize_model` loop for one mesh: apply every
non-armature modifier of the stack snapshot; then, when the polygon count
exceeds 10000, add a decimate modifier (default ratio 1), set
`mesh.modifiers["Decimate"].ratio = 0.5` and apply it. -/
def optimizeMeshObj (o : Obj) : Obj :=
  let o1 := o.modifiers.foldl
    (fun acc m => if decide (¬ m.mtype = "ARMATURE") then applyModifierByName m.name acc else acc) o
  if 10000 < o1.polygons then
    let dname := uniqueModName "Decimate" o1.modifiers
    let o2 : Obj := { o1 with modifiers := o1.modifiers ++ [⟨dname, "DECIMATE", 1⟩] }
    let o3 : Obj :=
      { o2 with modifiers := modifyFirstNamed "Decimate" (fun m => { m with ratio := 1/2 }) o2.modifiers }
    applyModifierByName "Decimate" o3
  else o1

/-- `optimize_model(armature)`: iterate over the snapshot of meshes
parented to the armature; each is made active, processed, deselected. -/
def optimize_model (armId : ObjId) (s : Scene) : Scene :=
  let meshes := s.objects.filter (fun o => decide (o.parent = some armId ∧ o.otype = ObjType.MESH))
  meshes.foldl
    (fun st m =>
      let st1 : Scene := { st with active := some m.id }
      let st2 := updateObj m.id optimizeMeshObj st1
      { st2 with selected := st2.selected.filter (fun i => decide (¬ i = m.id)) }) s

/-- A strip as serialised into the output, with its action resolved. -/
structure GlbStrip where
  name : String
  start : Int
  actionName : String
  keyframes : Nat
deriving DecidableEq

structure GlbTrack where
  name : String
  mute : Bool
  strips : List GlbStrip
deriving DecidableEq

structure GlbNode where
  name : String
  otype : ObjType
  parentName : Option String
  polygons : Nat
  tracks : List GlbTrack
deriving DecidableEq

/-- The fixed exporter settings passed by `export_glb`. -/
structure GltfSettings where
  export_format : String
  export_animations : Bool
  export_skins : Bool
  export_morph : Bool
  export_lights : Bool
  export_cameras : Bool
  export_extras : Bool
  export_draco_mesh_compression_enable : Bool
  export_draco_mesh_compression_level : Nat
  export_image_format : String
deriving DecidableEq

/-- The serialised output file content. -/
structure Glb where
  nodes : List GlbNode
  settings : GltfSettings
deriving DecidableEq

def exportTrack (s : Scene) (t : NlaTrack) : GlbTrack :=
  ⟨t.name, t.mute,
    t.strips.map (fun st =>
      let a := (lookupAction s st.action).getD ⟨"", 0⟩
      ⟨st.name, st.start, a.name, a.keyframes⟩)⟩

def exportNode (s : Scene) (o : Obj) : GlbNode :=
  { name := o.name
    otype := o.otype
    parentName := (o.parent.bind (lookupObj s)).map Obj.name
    polygons := o.polygons
    tracks := (match o.animation_data with
               | none => []
               | some ad => ad.nla_tracks).map (exportTrack s) }

def exportSettings : GltfSettings :=
  ⟨"GLB", true, true, false, false, false, true, true, 6, "WEBP"⟩

/-- `bpy.ops.export_scene.gltf(...)`: serialise the whole scene with the
fixed settings. -/
def export_scene_gltf (s : Scene) : Glb :=
  ⟨s.objects.map (exportNode s), exportSettings⟩

/-- `OUTPUT_FILE` constant of the script. -/
def OUTPUT_FILE : String := "swimmer.glb"

/-- The `ANIMATIONS` mapping, in dict insertion order. -/
def ANIMATIONS : List (String × String) :=
  [("swim_freestyle", "Swimming"),
   ("swim_breaststroke", "Breaststroke"),
   ("swim_backstroke", "Backstroke"),
   ("swim_butterfly", "Butterfly"),
   ("swim_dive", "Diving"),
   ("swim_turn_flip", "FlipTurn"),
   ("swim_turn_open", "OpenTurn")]

/-- The phases of `main`, for tracing which ones ran. -/
inductive Phase where
  | reset
  | importCharacter
  | animations
  | optimize
  | exportScene
  | report
deriving DecidableEq

/-- The observable outcome of one run. -/
structure RunResult where
  exitCode : Nat
  output : Option Glb
  outputPath : Option String
  log : List String
  phases : List Phase
  finalScene : Scene
deriving DecidableEq

/-- The `for filename, action_name in ANIMATIONS.items()` loop of `main`:
returns the threaded scene and the lines printed. -/
def processAnimations (entries : List (String × String)) (dir : String)
    (fs : FS) (arm : ObjId) (s : Scene) : Scene × List String :=
  match entries with
  | [] => (s, [])
  | (filename, action_name) :: rest =>
      let fbx_path := pathJoin dir (filename ++ ".fbx")
      match FS.lookup fs fbx_path with
      | some f =>
          let r1 := extract_animation f fbx_path action_name arm s
          let r2 := processAnimations rest dir fs arm r1.1
          (r2.1, (("Importing animation: " ++ filename) :: r1.2) ++ r2.2)
      | none =>
          let r2 := processAnimations rest dir fs arm s
          (r2.1, ("Skipping (not found): " ++ filename) :: r2.2)

def renameObj (i : ObjId) (nm : String) (s : Scene) : Scene :=
  updateObj i (fun o => { o with name := nm }) s

/-- `main()`: the whole run, as a function of the script directory, the
directory content and the prior host scene state. -/
def main (dir : String) (fs : FS) (s : Scene) : RunResult :=
  let s0 := clear_scene s
  let character_path := pathJoin dir "character.fbx"
  match FS.lookup fs character_path with
  | none =>
      { exitCode := 1
        output := none
        outputPath := none
        log := ["Error: Character file not found: " ++ character_path,
                "Please download a character from Mixamo as character.fbx"]
        phases := [Phase.reset]
        finalScene := s0 }
  | some cf =>
      let r := import_fbx cf s0
      match r.2 with
      | none =>
          { exitCode := 1
            output := none
            outputPath := none
            log := ["Importing character: " ++ character_path,
                    "Error: No armature found in character file"]
            phases := [Phase.reset, Phase.importCharacter]
            finalScene := r.1 }
      | some armId =>
          let s1 := renameObj armId "Swimmer" r.1
          let r2 := processAnimations ANIMATIONS dir fs armId s1
          let s2 := optimize_model armId r2.1
          let glb := export_scene_gltf s2
          let output_path := pathJoin dir OUTPUT_FILE
          { exitCode := 0
            output := some glb
            outputPath := some output_path
            log := (["Importing character: " ++ character_path] ++ r2.2 ++
                    ["Optimizing model...",
                     "Exporting to: " ++ output_path,
                     "Exported: " ++ output_path,
                     "Done!"])
            phases := [Phase.reset, Phase.importCharacter, Phase.animations,
                       Phase.optimize, Phase.exportScene, Phase.report]
            finalScene := s2 }

/-! ### Basic facts about id allocation and scene clearing -/

lemma mem_le_foldr_max (l : List Nat) (x : Nat) (hx : x ∈ l) : x ≤ l.foldr max 0 := by
  induction l with
  | nil => cases hx
  | cons a t ih =>
      rcases List.mem_cons.mp hx with h | h
      · subst h; exact le_max_left _ _
      · exact le_trans (ih h) (le_max_right _ _)

lemma objId_lt_freshObjId (s : Scene) (o : Obj) (ho : o ∈ s.objects) :
    o.id < freshObjId s := by
  have h := mem_le_foldr_max (s.objects.map Obj.id) o.id (List.mem_map_of_mem _ ho)
  exact Nat.lt_succ_of_le h

lemma actId_lt_freshActId (s : Scene) (p : ActId × Action) (hp : p ∈ s.actions) :
    p.1 < freshActId s := by
  have h := mem_le_foldr_max (s.actions.map Prod.fst) p.1 (List.mem_map_of_mem _ hp)
  exact Nat.lt_succ_of_le h

/-- The reset phase is a constant function: whatever the prior host state,
deleting every object orphans every action datablock, and the purge then
removes them all. -/
lemma clear_scene_eq (s : Scene) : clear_scene s = emptyScene := by
  simp [clear_scene, emptyScene, actionUsers]

/-! ### Structure of `importObjs` -/

lemma importObjs_ids (base : Nat) :
    ∀ (l : List ImpObj) (oid aid : Nat),
      (importObjs base oid aid l).1.map Obj.id = List.range' oid l.length := by
  intro l
  induction l with
  | nil => intro oid aid; rfl
  | cons x t ih =>
      intro oid aid
      simp [importObjs, List.range'_succ, ih]

lemma importObjs_otypes (base : Nat) :
    ∀ (l : List ImpObj) (oid aid : Nat),
      (importObjs base oid aid l).1.map Obj.otype = l.map ImpObj.otype := by
  intro l
  induction l with
  | nil => intro oid aid; rfl
  | cons x t ih =>
      intro oid aid
      simp [importObjs, ih]

/-- Number of bound actions the importer creates for a file. -/
def boundCount (l : List ImpObj) : Nat :=
  (l.filter (fun x => x.hasAnimData && x.boundAction.isSome)).length

lemma importObjs_actIds (base : Nat) :
    ∀ (l : List ImpObj) (oid aid : Nat),
      (importObjs base oid aid l).2.map Prod.fst = List.range' aid (boundCount l) := by
  intro l
  induction l with
  | nil => intro oid aid; rfl
  | cons x t ih =>
      intro oid aid
      cases h1 : x.hasAnimData with
      | false => simp [importObjs, boundCount, h1, ih]
      | true =>
          cases hb : x.boundAction with
          | none => simp [importObjs, boundCount, h1, hb, ih]
          | some a => simp [importObjs, boundCount, h1, hb, List.range'_succ, ih]

lemma importObjs_no_tracks (base : Nat) :
    ∀ (l : List ImpObj) (oid aid : Nat), ∀ o ∈ (importObjs base oid aid l).1, ∀ ad,
      o.animation_data = some ad → ad.nla_tracks = [] := by
  intro l
  induction l with
  | nil => intro _ _ o ho; cases ho
  | cons x t ih =>
      intro oid aid o ho ad had
      simp only [importObjs] at ho
      rcases List.mem_cons.mp ho with h | h
      · subst h
        cases h1 : x.hasAnimData with
        | false => simp [h1] at had
        | true =>
            simp only [h1, if_pos] at had
            cases had
            rfl
      · exact ih _ _ o h ad had

lemma importObjs_find_arm_none (base : Nat) (l : List ImpObj) (oid aid : Nat)
    (h : ∀ x ∈ l, ¬ x.otype = ObjType.ARMATURE) :
    (importObjs base oid aid l).1.find? isArmature = none := by
  rw [List.find?_eq_none]
  intro o ho
  have hm : o.otype ∈ (importObjs base oid aid l).1.map Obj.otype :=
    List.mem_map_of_mem _ ho
  rw [importObjs_otypes] at hm
  rcases List.mem_map.mp hm with ⟨x, hx, hxo⟩
  simp only [isArmature, decide_eq_true_eq]
  intro heq
  exact h x hx (hxo ▸ heq)

lemma importObjs_find_arm (base : Nat) :
    ∀ (l : List ImpObj) (oid aid : Nat) (a : ImpObj),
      l.find? (fun x => decide (x.otype = ObjType.ARMATURE)) = some a →
      ∃ ob, (importObjs base oid aid l).1.find? isArmature = some ob ∧
        ob.otype = ObjType.ARMATURE ∧
        (a.hasAnimData = false → ob.animation_data = none) ∧
        (a.hasAnimData = true →
          ∃ origId, aid ≤ origId ∧
            ob.animation_data = some ⟨a.boundAction.map (fun _ => origId), []⟩ ∧
            ∀ act, a.boundAction = some act →
              (origId, (⟨act.name, act.keyframes⟩ : Action)) ∈ (importObjs base oid aid l).2) := by
  intro l
  induction l with
  | nil => intro oid aid a ha; cases ha
  | cons x t ih =>
      intro oid aid a ha
      by_cases hx : x.otype = ObjType.ARMATURE
      · rw [List.find?_cons_of_pos _ (by simpa using hx)] at ha
        cases ha
        refine ⟨{ id := oid, name := x.name, otype := x.otype,
                  parent := x.parentIdx.map (fun j => base + j),
                  animation_data :=
                    if x.hasAnimData then some ⟨x.boundAction.map (fun _ => aid), []⟩
                    else none,
                  polygons := x.polygons, modifiers := x.modifiers,
                  applied := [] }, ?_, hx, ?_, ?_⟩
        · simp only [importObjs]
          exact List.find?_cons_of_pos _ (by simp [isArmature, hx])
        · intro h0
          simp [h0]
        · intro h1
          refine ⟨aid, le_refl _, ?_, ?_⟩
          · simp [h1]
          · intro act hact
            simp [importObjs, h1, hact]
      · rw [List.find?_cons_of_neg _ (by simpa using hx)] at ha
        rcases ih (oid + 1)
            (aid + (if x.hasAnimData then
                      match x.boundAction with
                      | some b => [(aid, (⟨b.name, b.keyframes⟩ : Action))]
                      | none => []
                    else []).length) a ha with
          ⟨ob, hfind, hty, hno, hyes⟩
        refine ⟨ob, ?_, hty, hno, ?_⟩
        · show ((importObjs base oid aid (x :: t)).1).find? isArmature = _
          simp only [importObjs]
          rw [List.find?_cons_of_neg _ (by simp [isArmature, hx])]
          exact hfind
        · intro h1
          rcases hyes h1 with ⟨origId, hle, hanim, hmem⟩
          refine ⟨origId, le_trans (Nat.le_add_right _ _) hle, hanim, ?_⟩
          intro act hact
          have := hmem act hact
          simp only [importObjs]
          exact List.mem_append_right _ this

/-! ### Import and selection bridge -/

/-- The objects a file import creates. -/
def importedObjs (f : FbxFile) (s : Scene) : List Obj :=
  (importObjs (freshObjId s) (freshObjId s) (freshActId s) f.objects).1

/-- The action datablocks a file import creates. -/
def importedActs (f : FbxFile) (s : Scene) : List (ActId × Action) :=
  (importObjs (freshObjId s) (freshObjId s) (freshActId s) f.objects).2

lemma import_scene_fbx_eq (f : FbxFile) (s : Scene) :
    import_scene_fbx f s =
      ⟨s.objects ++ importedObjs f s, s.actions ++ importedActs f s,
       (importedObjs f s).map Obj.id, none⟩ := rfl

lemma importedObjs_id_ge (f : FbxFile) (s : Scene) (i : ObjId)
    (hi : i ∈ (importedObjs f s).map Obj.id) : freshObjId s ≤ i := by
  rw [importedObjs, importObjs_ids] at hi
  exact (List.mem_range'_1.mp hi).1

lemma selectedObjects_import (f : FbxFile) (s : Scene) :
    (import_scene_fbx f s).selectedObjects = importedObjs f s := by
  rw [import_scene_fbx_eq]
  unfold Scene.selectedObjects
  simp only
  rw [List.filter_append]
  have h1 : s.objects.filter
      (fun o => ((importedObjs f s).map Obj.id).contains o.id) = [] := by
    rw [List.filter_eq_nil_iff]
    intro o ho hc
    have hm : o.id ∈ (importedObjs f s).map Obj.id := List.elem_iff.mp hc
    exact absurd (objId_lt_freshObjId s o ho)
      (Nat.not_lt.mpr (importedObjs_id_ge f s o.id hm))
  have h2 : (importedObjs f s).filter
      (fun o => ((importedObjs f s).map Obj.id).contains o.id) = importedObjs f s := by
    rw [List.filter_eq_self]
    intro o ho
    exact List.elem_iff.mpr (List.mem_map_of_mem _ ho)
  rw [h1, h2, List.nil_append]

lemma removeSelected_eq (olds news : List Obj) (acts : List (ActId × Action))
    (sel : List ObjId)
    (h1 : ∀ o ∈ olds, o.id ∉ sel)
    (h2 : ∀ o ∈ news, o.id ∈ sel) :
    removeSelected ⟨olds ++ news, acts, sel, none⟩ = ⟨olds, acts, [], none⟩ := by
  unfold removeSelected
  simp only [Scene.mk.injEq, and_true, true_and]
  rw [List.filter_append]
  have ha : olds.filter (fun o => !(sel.contains o.id)) = olds := by
    rw [List.filter_eq_self]
    intro o ho
    simpa using h1 o ho
  have hb : news.filter (fun o => !(sel.contains o.id)) = [] := by
    rw [List.filter_eq_nil_iff]
    intro o ho
    simpa using h2 o ho
  rw [ha, hb, List.append_nil]

/-! ### Characterization of `extract_animation` -/

lemma find?_append_of_none {α} (p : α → Bool) (l1 l2 : List α)
    (h : l1.find? p = none) : (l1 ++ l2).find? p = l2.find? p := by
  rw [List.find?_append, h, Option.none_or]

lemma find?_key_of_nodup {β} (l : List (Nat × β)) (k : Nat) (v : β)
    (hnd : (l.map Prod.fst).Nodup) (hmem : (k, v) ∈ l) :
    l.find? (fun p => decide (p.1 = k)) = some (k, v) := by
  induction l with
  | nil => cases hmem
  | cons x t ih =>
      rw [List.map_cons, List.nodup_cons] at hnd
      rcases List.mem_cons.mp hmem with h | h
      · subst h
        exact List.find?_cons_of_pos _ (by simp)
      · have hk : ¬ x.1 = k := by
          intro he
          exact hnd.1 (he ▸ List.mem_map.mpr ⟨(k, v), h, rfl⟩)
        rw [List.find?_cons_of_neg _ (by simp [hk])]
        exact ih hnd.2 h

def attachTrack (nm : String) (act : ActId) (o : Obj) : Obj :=
  addTrack nm act (animation_data_create o)

lemma animation_data_create_id (o : Obj) : (animation_data_create o).id = o.id := by
  unfold animation_data_create
  split <;> rfl

lemma attachTrack_id (nm : String) (act : ActId) (o : Obj) :
    (attachTrack nm act o).id = o.id := by
  unfold attachTrack addTrack
  simp [animation_data_create_id]

lemma extract_animation_found (f : FbxFile) (path nm : String) (t : ObjId) (s : Scene)
    (a : ImpObj) (act : ImpAction)
    (hfind : f.objects.find? (fun x => decide (x.otype = ObjType.ARMATURE)) = some a)
    (h1 : a.hasAnimData = true) (hact : a.boundAction = some act) :
    ∃ origId,
      freshActId s ≤ origId ∧
      origId < freshActId (import_scene_fbx f s) ∧
      (origId, (⟨act.name, act.keyframes⟩ : Action)) ∈ importedActs f s ∧
      extract_animation f path nm t s =
        (⟨s.objects.map
            (fun o => if o.id = t then attachTrack nm (freshActId (import_scene_fbx f s)) o else o),
          (s.actions ++ importedActs f s) ++
            [(freshActId (import_scene_fbx f s), ⟨nm, act.keyframes⟩)],
          [], none⟩,
         ["Added animation: " ++ nm]) := by
  obtain ⟨ob, hfo, hty, hnofn, hyes⟩ :=
    importObjs_find_arm (freshObjId s) f.objects (freshObjId s) (freshActId s) a hfind
  obtain ⟨origId, hle, hanim, hmem⟩ := hyes h1
  have hmemA : (origId, (⟨act.name, act.keyframes⟩ : Action)) ∈ importedActs f s :=
    hmem act hact
  have hlt2 : origId < freshActId (import_scene_fbx f s) := by
    apply actId_lt_freshActId (import_scene_fbx f s) (origId, ⟨act.name, act.keyframes⟩)
    rw [import_scene_fbx_eq]
    exact List.mem_append_right _ hmemA
  refine ⟨origId, hle, hlt2, hmemA, ?_⟩
  have hbind : ob.animation_data.bind AnimData.action = some origId := by
    rw [hanim, hact]
    rfl
  have hnone : s.actions.find? (fun p => decide (p.1 = origId)) = none := by
    rw [List.find?_eq_none]
    intro p hp
    simp only [decide_eq_true_eq]
    intro he
    have hplt := actId_lt_freshActId s p hp
    rw [he] at hplt
    exact absurd hplt (Nat.not_lt.mpr hle)
  have hnd : ((importedActs f s).map Prod.fst).Nodup := by
    rw [importedActs, importObjs_actIds]
    exact List.nodup_range' _ _
  have hlook : lookupAction (import_scene_fbx f s) origId = some ⟨act.name, act.keyframes⟩ := by
    unfold lookupAction
    rw [import_scene_fbx_eq]
    simp only
    rw [find?_append_of_none _ _ _ hnone,
        find?_key_of_nodup (importedActs f s) origId ⟨act.name, act.keyframes⟩ hnd hmemA]
    rfl
  have hfo2 : List.find? isArmature (importedObjs f s) = some ob := hfo
  unfold extract_animation
  simp only [selectedObjects_import, hfo2, hbind, hlook, Option.getD_some]
  have hobj : (import_scene_fbx f s).objects = s.objects ++ importedObjs f s := by
    rw [import_scene_fbx_eq]
  have hacts : (import_scene_fbx f s).actions = s.actions ++ importedActs f s := by
    rw [import_scene_fbx_eq]
  have hsel : (import_scene_fbx f s).selected = (importedObjs f s).map Obj.id := by
    rw [import_scene_fbx_eq]
  have hactv : (import_scene_fbx f s).active = none := by
    rw [import_scene_fbx_eq]
  rw [hobj, hacts, hsel, hactv]
  simp only [updateObj]
  rw [List.map_map]
  have hG : ((fun o => if o.id = t then addTrack nm (freshActId (import_scene_fbx f s)) o else o) ∘
             (fun o => if o.id = t then animation_data_create o else o)) =
            (fun o => if o.id = t then attachTrack nm (freshActId (import_scene_fbx f s)) o else o) := by
    funext o
    by_cases h : o.id = t
    · simp [Function.comp, h, animation_data_create_id, attachTrack]
    · simp [Function.comp, h]
  rw [hG]
  have hGid : ∀ o : Obj,
      ((fun o => if o.id = t then attachTrack nm (freshActId (import_scene_fbx f s)) o else o) o).id = o.id := by
    intro o
    by_cases h : o.id = t
    · simp [h, attachTrack_id]
    · simp [h]
  rw [List.map_append]
  have hr1 : ∀ o ∈ s.objects.map
      (fun o => if o.id = t then attachTrack nm (freshActId (import_scene_fbx f s)) o else o),
      o.id ∉ (importedObjs f s).map Obj.id := by
    intro o ho
    rcases List.mem_map.mp ho with ⟨o0, ho0, rfl⟩
    rw [hGid o0]
    intro hmem
    exact absurd (objId_lt_freshObjId s o0 ho0)
      (Nat.not_lt.mpr (importedObjs_id_ge f s o0.id hmem))
  have hr2 : ∀ o ∈ (importedObjs f s).map
      (fun o => if o.id = t then attachTrack nm (freshActId (import_scene_fbx f s)) o else o),
      o.id ∈ (importedObjs f s).map Obj.id := by
    intro o ho
    rcases List.mem_map.mp ho with ⟨o0, ho0, rfl⟩
    rw [hGid o0]
    exact List.mem_map_of_mem _ ho0
  rw [removeSelected_eq _ _ _ _ hr1 hr2]

lemma extract_animation_noact (f : FbxFile) (path nm : String) (t : ObjId) (s : Scene)
    (a : ImpObj)
    (hfind : f.objects.find? (fun x => decide (x.otype = ObjType.ARMATURE)) = some a)
    (hno : a.hasAnimData = false ∨ a.boundAction = none) :
    extract_animation f path nm t s =
      (⟨s.objects, s.actions ++ importedActs f s, [], none⟩, []) := by
  obtain ⟨ob, hfo, hty, hnofn, hyes⟩ :=
    importObjs_find_arm (freshObjId s) f.objects (freshObjId s) (freshActId s) a hfind
  have hbind : ob.animation_data.bind AnimData.action = none := by
    rcases hno with h0 | h0
    · rw [hnofn h0]
      rfl
    · cases h1 : a.hasAnimData with
      | false =>
          rw [hnofn h1]
          rfl
      | true =>
          obtain ⟨origId, _, hanim, _⟩ := hyes h1
          rw [hanim, h0]
          rfl
  have hfo2 : List.find? isArmature (importedObjs f s) = some ob := hfo
  unfold extract_animation
  simp only [selectedObjects_import, hfo2, hbind]
  rw [import_scene_fbx_eq]
  have hr1 : ∀ o ∈ s.objects, o.id ∉ (importedObjs f s).map Obj.id := by
    intro o ho hmem
    exact absurd (objId_lt_freshObjId s o ho)
      (Nat.not_lt.mpr (importedObjs_id_ge f s o.id hmem))
  have hr2 : ∀ o ∈ importedObjs f s, o.id ∈ (importedObjs f s).map Obj.id := by
    intro o ho
    exact List.mem_map_of_mem _ ho
  rw [removeSelected_eq _ _ _ _ hr1 hr2]

lemma extract_animation_noarm (f : FbxFile) (path nm : String) (t : ObjId) (s : Scene)
    (hnone : ∀ x ∈ f.objects, ¬ x.otype = ObjType.ARMATURE) :
    extract_animation f path nm t s =
      (import_scene_fbx f s, ["Warning: No armature found in " ++ path]) := by
  have hfo : List.find? isArmature (importedObjs f s) = none :=
    importObjs_find_arm_none (freshObjId s) f.objects (freshObjId s) (freshActId s) hnone
  unfold extract_animation
  simp only [selectedObjects_import, hfo]


/-! ### Behaviour of `main` -/

lemma main_completes (dir : String) (fs : FS) (s : Scene) (cf : FbxFile)
    (hcf : FS.lookup fs (pathJoin dir "character.fbx") = some cf)
    (harm : ∃ x ∈ cf.objects, x.otype = ObjType.ARMATURE) :
    (main dir fs s).exitCode = 0 ∧ (main dir fs s).output.isSome = true ∧
    (main dir fs s).outputPath = some (pathJoin dir OUTPUT_FILE) ∧
    (main dir fs s).phases = [Phase.reset, Phase.importCharacter, Phase.animations,
                              Phase.optimize, Phase.exportScene, Phase.report] := by
  obtain ⟨x, hx, hxarm⟩ := harm
  have hsome : (cf.objects.find? (fun y => decide (y.otype = ObjType.ARMATURE))).isSome := by
    rw [List.find?_isSome]
    exact ⟨x, hx, by simp [hxarm]⟩
  obtain ⟨a, ha⟩ := Option.isSome_iff_exists.mp hsome
  obtain ⟨ob, hfo, _, _, _⟩ :=
    importObjs_find_arm (freshObjId (clear_scene s)) cf.objects
      (freshObjId (clear_scene s)) (freshActId (clear_scene s)) a ha
  have hfo2 : ((import_scene_fbx cf (clear_scene s)).selectedObjects).find? isArmature
      = some ob := by
    rw [selectedObjects_import]
    exact hfo
  have himp : import_fbx cf (clear_scene s) =
      (import_scene_fbx cf (clear_scene s), some ob.id) := by
    simp [import_fbx, hfo2]
  simp [main, hcf, himp]

/-- C7: the run is a deterministic function of the directory content: the
reset phase clears all prior scene state and orphaned datablocks before
any import, so two runs in the same host session over the same input
files produce identical results (in particular an identical output file). -/
theorem run_deterministic (dir : String) (fs : FS) (s1 s2 : Scene) :
    main dir fs s1 = main dir fs s2 := by
  unfold main
  rw [clear_scene_eq s1, clear_scene_eq s2]

/-- C1: if `character.fbx` is absent, or present without any skeletal
object, the run exits with status 1, produces no output file, and the
animation, optimization, export and report phases never run. -/
theorem character_failure_halts (dir : String) (fs : FS) (s : Scene)
    (h : FS.lookup fs (pathJoin dir "character.fbx") = none ∨
         ∃ cf, FS.lookup fs (pathJoin dir "character.fbx") = some cf ∧
           ∀ x ∈ cf.objects, ¬ x.otype = ObjType.ARMATURE) :
    (main dir fs s).exitCode = 1 ∧ (main dir fs s).output = none ∧
      (main dir fs s).outputPath = none ∧
      Phase.animations ∉ (main dir fs s).phases ∧
      Phase.optimize ∉ (main dir fs s).phases ∧
      Phase.exportScene ∉ (main dir fs s).phases ∧
      Phase.report ∉ (main dir fs s).phases := by
  rcases h with h | ⟨cf, hcf, hnoarm⟩
  · simp [main, h]
  · have hfnone : ((import_scene_fbx cf (clear_scene s)).selectedObjects).find? isArmature
        = none := by
      rw [selectedObjects_import]
      exact importObjs_find_arm_none (freshObjId (clear_scene s)) cf.objects
        (freshObjId (clear_scene s)) (freshActId (clear_scene s)) hnoarm
    have himp : import_fbx cf (clear_scene s) =
        (import_scene_fbx cf (clear_scene s), none) := by
      simp [import_fbx, hfnone]
    simp [main, hcf, himp]

/-- Witness for C1 at a concrete input: an empty directory. -/
theorem character_failure_halts_witness :
    (FS.lookup ⟨[]⟩ (pathJoin "d" "character.fbx") = none ∨
      ∃ cf, FS.lookup ⟨[]⟩ (pathJoin "d" "character.fbx") = some cf ∧
        ∀ x ∈ cf.objects, ¬ x.otype = ObjType.ARMATURE) ∧
    (main "d" ⟨[]⟩ emptyScene).exitCode = 1 ∧
    (main "d" ⟨[]⟩ emptyScene).output = none := by
  have h := character_failure_halts "d" ⟨[]⟩ emptyScene (Or.inl rfl)
  exact ⟨Or.inl rfl, h.1, h.2.1⟩

/-! ### Demonstration inputs -/

/-- A minimal valid character file: an armature plus one skinned mesh. -/
def demoChar : FbxFile :=
  ⟨[⟨"Armature", ObjType.ARMATURE, none, false, none, 0, []⟩,
    ⟨"Body", ObjType.MESH, some 0, false, none, 12000, [⟨"Armature", "ARMATURE", 1⟩]⟩]⟩

/-- A minimal animation file: an armature with one bound action. -/
def demoAnim : FbxFile :=
  ⟨[⟨"Armature", ObjType.ARMATURE, none, true, some ⟨"mixamo", 5⟩, 0, []⟩]⟩

/-- A directory holding the character and all seven animation files. -/
def demoFs : FS :=
  ⟨("d/character.fbx", demoChar) ::
    ANIMATIONS.map (fun p => (pathJoin "d" (p.1 ++ ".fbx"), demoAnim))⟩

/-- A directory holding only the character file. -/
def fsCharOnly : FS := ⟨[("d/character.fbx", demoChar)]⟩

/-- Track names of the named node in an output file. -/
def glbTrackNames (g : Glb) (nodeName : String) : List String :=
  ((g.nodes.find? (fun n => decide (n.name = nodeName))).map
    (fun n => n.tracks.map GlbTrack.name)).getD []

/-- C5: an animation entry whose file is absent is logged as skipped and
the loop continues with the remaining entries over an unchanged scene;
a missing optional file never causes a non-zero exit. -/
theorem missing_animation_skipped (dir : String) (fs : FS) (arm : ObjId)
    (s s2 : Scene) (filename trackname : String) (rest : List (String × String))
    (cf : FbxFile)
    (habsent : FS.lookup fs (pathJoin dir (filename ++ ".fbx")) = none)
    (hcf : FS.lookup fs (pathJoin dir "character.fbx") = some cf)
    (harm : ∃ x ∈ cf.objects, x.otype = ObjType.ARMATURE) :
    processAnimations ((filename, trackname) :: rest) dir fs arm s =
      ((processAnimations rest dir fs arm s).1,
        ("Skipping (not found): " ++ filename) :: (processAnimations rest dir fs arm s).2) ∧
    (main dir fs s2).exitCode = 0 ∧ (main dir fs s2).output.isSome = true := by
  refine ⟨?_, ?_, ?_⟩
  · simp only [processAnimations, habsent]
  · exact (main_completes dir fs s2 cf hcf harm).1
  · exact (main_completes dir fs s2 cf hcf harm).2.1

/-- Witness for C5: only the character file is present, so
`swim_freestyle.fbx` is absent and the run still completes. -/
theorem missing_animation_skipped_witness :
    (FS.lookup fsCharOnly (pathJoin "d" ("swim_freestyle" ++ ".fbx")) = none) ∧
    (FS.lookup fsCharOnly (pathJoin "d" "character.fbx") = some demoChar) ∧
    (∃ x ∈ demoChar.objects, x.otype = ObjType.ARMATURE) ∧
    processAnimations [("swim_freestyle", "Swimming")] "d" fsCharOnly 1 emptyScene =
      (emptyScene, ["Skipping (not found): " ++ "swim_freestyle"]) ∧
    (main "d" fsCharOnly emptyScene).exitCode = 0 := by
  have h := missing_animation_skipped "d" fsCharOnly 1 emptyScene emptyScene
    "swim_freestyle" "Swimming" [] demoChar rfl rfl (by decide)
  exact ⟨rfl, rfl, by decide, h.1, h.2.1⟩

/-- C8: the animation mapping is exactly these seven entries, processed in
this order; the output file is `swimmer.glb` in the script directory; on a
directory holding the character and all seven animation files the exported
skeleton carries the seven tracks in mapping order. -/
theorem animations_mapping_fixed :
    ANIMATIONS = [("swim_freestyle", "Swimming"), ("swim_breaststroke", "Breaststroke"),
                  ("swim_backstroke", "Backstroke"), ("swim_butterfly", "Butterfly"),
                  ("swim_dive", "Diving"), ("swim_turn_flip", "FlipTurn"),
                  ("swim_turn_open", "OpenTurn")] ∧
    OUTPUT_FILE = "swimmer.glb" ∧
    (∀ (dir : String) (fs : FS) (s : Scene) (cf : FbxFile),
      FS.lookup fs (pathJoin dir "character.fbx") = some cf →
      (∃ x ∈ cf.objects, x.otype = ObjType.ARMATURE) →
      (main dir fs s).outputPath = some (pathJoin dir "swimmer.glb")) ∧
    ((main "d" demoFs emptyScene).output.map (fun g => glbTrackNames g "Swimmer")).getD []
      = ANIMATIONS.map Prod.snd := by
  refine ⟨rfl, rfl, ?_, rfl⟩
  intro dir fs s cf hcf harm
  exact (main_completes dir fs s cf hcf harm).2.2.1

/-- Witness for C8 on the all-files directory. -/
theorem animations_mapping_fixed_witness :
    (FS.lookup demoFs (pathJoin "d" "character.fbx") = some demoChar) ∧
    (∃ x ∈ demoChar.objects, x.otype = ObjType.ARMATURE) ∧
    (main "d" demoFs emptyScene).outputPath = some (pathJoin "d" "swimmer.glb") := by
  refine ⟨rfl, by decide, ?_⟩
  exact animations_mapping_fixed.2.2.1 "d" demoFs emptyScene demoChar rfl (by decide)


/-! ### Tracks, lookups, and the everything-muted invariant -/

/-- The NLA tracks of an object. -/
def tracksOfObj (o : Obj) : List NlaTrack :=
  match o.animation_data with
  | none => []
  | some ad => ad.nla_tracks

/-- The NLA tracks of the object with the given id, `[]` when absent. -/
def tracksOf (s : Scene) (i : ObjId) : List NlaTrack :=
  ((lookupObj s i).map tracksOfObj).getD []

lemma tracksOfObj_attach (nm : String) (aid : ActId) (o : Obj) :
    tracksOfObj (attachTrack nm aid o) = tracksOfObj o ++ [newTrack nm aid] := by
  unfold attachTrack addTrack animation_data_create tracksOfObj
  cases h : o.animation_data with
  | none => simp [h]
  | some ad => simp [h]

lemma actionRefs_attach (nm : String) (aid : ActId) (o : Obj) :
    Obj.actionRefs (attachTrack nm aid o) = Obj.actionRefs o ++ [aid] := by
  unfold attachTrack addTrack animation_data_create Obj.actionRefs newTrack
  cases h : o.animation_data with
  | none => simp [h]
  | some ad => simp [h]

lemma lookupObj_map_ite (L : List Obj) (t : ObjId) (g : Obj → Obj)
    (hg : ∀ o, (g o).id = o.id) :
    List.find? (fun o => decide (o.id = t)) (L.map (fun o => if o.id = t then g o else o)) =
      (List.find? (fun o => decide (o.id = t)) L).map
        (fun o => if o.id = t then g o else o) := by
  have hfun : ((fun o => decide (o.id = t)) ∘ fun o => if o.id = t then g o else o)
      = (fun o : Obj => decide (o.id = t)) := by
    funext o
    by_cases h : o.id = t <;> simp [Function.comp, h, hg]
  rw [List.find?_map, hfun]

/-- Every track of the object is muted. -/
def MutedObj (o : Obj) : Prop := ∀ tr ∈ tracksOfObj o, tr.mute = true

/-- Every track of every scene object is muted. -/
def AllMuted (s : Scene) : Prop := ∀ o ∈ s.objects, MutedObj o

lemma allMuted_empty : AllMuted emptyScene := by
  intro o ho
  cases ho

lemma mutedObj_import (f : FbxFile) (s : Scene) :
    ∀ o ∈ importedObjs f s, MutedObj o := by
  intro o ho tr htr
  have hemp : tracksOfObj o = [] := by
    unfold tracksOfObj
    cases had : o.animation_data with
    | none => rfl
    | some ad =>
        exact importObjs_no_tracks (freshObjId s) f.objects (freshObjId s) (freshActId s)
          o ho ad had
  rw [hemp] at htr
  cases htr

lemma allMuted_import (f : FbxFile) (s : Scene) (h : AllMuted s) :
    AllMuted (import_scene_fbx f s) := by
  rw [import_scene_fbx_eq]
  intro o ho
  rcases List.mem_append.mp ho with h1 | h1
  · exact h o h1
  · exact mutedObj_import f s o h1

lemma mutedObj_create (o : Obj) (h : MutedObj o) : MutedObj (animation_data_create o) := by
  intro tr htr
  unfold animation_data_create at htr
  by_cases hs : o.animation_data.isSome
  · rw [if_pos hs] at htr
    exact h tr htr
  · rw [if_neg hs] at htr
    unfold tracksOfObj at htr
    simp at htr

lemma mutedObj_addTrack (nm : String) (aid : ActId) (o : Obj) (h : MutedObj o) :
    MutedObj (addTrack nm aid o) := by
  intro tr htr
  unfold addTrack tracksOfObj at htr
  cases had : o.animation_data with
  | none => simp [had] at htr
  | some ad =>
      simp only [had, Option.map_some] at htr
      rcases List.mem_append.mp htr with h1 | h1
      · exact h tr (by unfold tracksOfObj; rw [had]; exact h1)
      · rcases List.mem_singleton.mp h1 with rfl
        rfl

lemma allMuted_updateObj (i : ObjId) (g : Obj → Obj) (s : Scene)
    (hg : ∀ o, MutedObj o → MutedObj (g o)) (h : AllMuted s) :
    AllMuted (updateObj i g s) := by
  intro o ho
  unfold updateObj at ho
  simp only at ho
  rcases List.mem_map.mp ho with ⟨o0, ho0, rfl⟩
  by_cases hid : o0.id = i
  · rw [if_pos hid]
    exact hg o0 (h o0 ho0)
  · rw [if_neg hid]
    exact h o0 ho0

lemma allMuted_removeSelected (s : Scene) (h : AllMuted s) :
    AllMuted (removeSelected s) := by
  intro o ho
  unfold removeSelected at ho
  simp only at ho
  exact h o (List.mem_of_mem_filter ho)

lemma allMuted_extract (f : FbxFile) (path nm : String) (t : ObjId) (s : Scene)
    (h : AllMuted s) : AllMuted (extract_animation f path nm t s).1 := by
  have him : AllMuted (import_scene_fbx f s) := allMuted_import f s h
  unfold extract_animation
  simp only
  cases hfo : List.find? isArmature (Scene.selectedObjects (import_scene_fbx f s)) with
  | none => exact him
  | some imp =>
      dsimp only
      cases hbd : imp.animation_data.bind AnimData.action with
      | none => exact allMuted_removeSelected _ him
      | some origId =>
          dsimp only
          apply allMuted_removeSelected
          apply allMuted_updateObj _ _ _ (fun o => mutedObj_addTrack nm _ o)
          apply allMuted_updateObj _ _ _ (fun o => mutedObj_create o)
          exact fun o ho => him o ho

lemma allMuted_process (entries : List (String × String)) (dir : String) (fs : FS)
    (arm : ObjId) : ∀ s, AllMuted s → AllMuted (processAnimations entries dir fs arm s).1 := by
  induction entries with
  | nil => intro s h; exact h
  | cons e rest ih =>
      intro s h
      obtain ⟨fn, an⟩ := e
      unfold processAnimations
      cases hl : FS.lookup fs (pathJoin dir (fn ++ ".fbx")) with
      | some f =>
          simp only [hl]
          exact ih _ (allMuted_extract f _ an arm s h)
      | none =>
          simp only [hl]
          exact ih _ h

lemma applyModifierByName_anim (nm : String) (o : Obj) :
    (applyModifierByName nm o).animation_data = o.animation_data := by
  unfold applyModifierByName
  cases o.modifiers.find? (fun m => decide (m.name = nm)) <;> rfl

lemma optimizeMeshObj_anim (o : Obj) :
    (optimizeMeshObj o).animation_data = o.animation_data := by
  unfold optimizeMeshObj
  have hfold : ∀ (ms : List Modifier) (o0 : Obj),
      ((ms.foldl (fun acc m =>
        if decide (¬ m.mtype = "ARMATURE") then applyModifierByName m.name acc else acc) o0)).animation_data
        = o0.animation_data := by
    intro ms
    induction ms with
    | nil => intro o0; rfl
    | cons m rest ih =>
        intro o0
        simp only [List.foldl_cons]
        by_cases hm : m.mtype = "ARMATURE"
        · rw [if_neg (by simp [hm]), ih]
        · rw [if_pos (by simp [hm]), ih, applyModifierByName_anim]
  simp only
  split
  · rw [applyModifierByName_anim]
    simp only
    exact hfold _ o
  · exact hfold _ o

lemma mutedObj_optimize (o : Obj) (h : MutedObj o) : MutedObj (optimizeMeshObj o) := by
  intro tr htr
  unfold tracksOfObj at htr
  rw [optimizeMeshObj_anim] at htr
  exact h tr htr

lemma allMuted_optimize (armId : ObjId) (s : Scene) (h : AllMuted s) :
    AllMuted (optimize_model armId s) := by
  unfold optimize_model
  simp only
  have hfold : ∀ (ml : List Obj) (s0 : Scene), AllMuted s0 →
      AllMuted (ml.foldl (fun st m =>
        let st1 : Scene := { st with active := some m.id }
        let st2 := updateObj m.id optimizeMeshObj st1
        { st2 with selected := st2.selected.filter (fun i => decide (¬ i = m.id)) }) s0) := by
    intro ml
    induction ml with
    | nil => intro s0 h0; exact h0
    | cons m rest ih =>
        intro s0 h0
        simp only [List.foldl_cons]
        apply ih
        intro o ho
        exact allMuted_updateObj m.id optimizeMeshObj _ (fun o => mutedObj_optimize o) h0 o ho
  exact hfold _ s h

lemma allMuted_rename (i : ObjId) (nm : String) (s : Scene) (h : AllMuted s) :
    AllMuted (renameObj i nm s) := by
  apply allMuted_updateObj
  · intro o ho tr htr
    exact ho tr htr
  · exact h

lemma export_muted (s : Scene) (h : AllMuted s) :
    ∀ n ∈ (export_scene_gltf s).nodes, ∀ tr ∈ n.tracks, tr.mute = true := by
  intro n hn tr htr
  unfold export_scene_gltf at hn
  simp only at hn
  rcases List.mem_map.mp hn with ⟨o, ho, rfl⟩
  unfold exportNode at htr
  simp only at htr
  rcases List.mem_map.mp htr with ⟨tr0, htr0, rfl⟩
  unfold exportTrack
  simp only
  exact h o ho tr0 (by unfold tracksOfObj; exact htr0)

/-- Whatever the directory content, every track of every node of the
output file is muted. -/
lemma main_output_muted (dir : String) (fs : FS) (s : Scene) (g : Glb)
    (hg : (main dir fs s).output = some g) :
    ∀ n ∈ g.nodes, ∀ tr ∈ n.tracks, tr.mute = true := by
  have hclear : AllMuted (clear_scene s) := by
    rw [clear_scene_eq]
    exact allMuted_empty
  unfold main at hg
  simp only at hg
  cases hlk : FS.lookup fs (pathJoin dir "character.fbx") with
  | none => rw [hlk] at hg; cases hg
  | some cf =>
      rw [hlk] at hg
      simp only at hg
      cases himp : (import_fbx cf (clear_scene s)).2 with
      | none => rw [himp] at hg; cases hg
      | some armId =>
          rw [himp] at hg
          simp only [Option.some.injEq] at hg
          subst hg
          apply export_muted
          apply allMuted_optimize
          apply allMuted_process
          apply allMuted_rename
          have : (import_fbx cf (clear_scene s)).1 = import_scene_fbx cf (clear_scene s) := rfl
          rw [this]
          exact allMuted_import cf (clear_scene s) hclear


/-! ### Claims about `extract_animation` -/

/-- C2: for an animation entry whose imported first skeletal object has a
bound action, `extract_animation` duplicates that action (the original
datablock stays alongside a new one), renames the duplicate to the mapped
track name, and appends to the target exactly one new muted track holding
the duplicate as a single strip starting at frame 0; if every prior
target track was muted, every track after is muted, and every track of
every node of any run's output file is muted. -/
theorem extract_attaches_muted_track (f : FbxFile) (path nm : String) (t : ObjId)
    (s : Scene) (a : ImpObj) (act : ImpAction) (o0 : Obj)
    (hfind : f.objects.find? (fun x => decide (x.otype = ObjType.ARMATURE)) = some a)
    (h1 : a.hasAnimData = true) (hact : a.boundAction = some act)
    (ht : lookupObj s t = some o0) :
    ∃ newId origId,
      origId ≠ newId ∧
      (origId, (⟨act.name, act.keyframes⟩ : Action)) ∈ (extract_animation f path nm t s).1.actions ∧
      (newId, (⟨nm, act.keyframes⟩ : Action)) ∈ (extract_animation f path nm t s).1.actions ∧
      lookupObj (extract_animation f path nm t s).1 t = some (attachTrack nm newId o0) ∧
      tracksOf (extract_animation f path nm t s).1 t =
        tracksOf s t ++ [⟨nm, true, [⟨nm, 0, newId⟩]⟩] ∧
      ((∀ tr ∈ tracksOf s t, tr.mute = true) →
        ∀ tr ∈ tracksOf (extract_animation f path nm t s).1 t, tr.mute = true) ∧
      (∀ (dir : String) (fs2 : FS) (s3 : Scene) (g : Glb),
        (main dir fs2 s3).output = some g → ∀ n ∈ g.nodes, ∀ tr ∈ n.tracks, tr.mute = true) := by
  obtain ⟨origId, hge, hlt, hmemA, heq⟩ := extract_animation_found f path nm t s a act hfind h1 hact
  have ht' : o0.id = t := by
    have := List.find?_some ht
    simpa using this
  have hlook : lookupObj (extract_animation f path nm t s).1 t =
      some (attachTrack nm (freshActId (import_scene_fbx f s)) o0) := by
    rw [heq]
    unfold lookupObj
    rw [lookupObj_map_ite s.objects t
      (attachTrack nm (freshActId (import_scene_fbx f s)))
      (fun o => attachTrack_id nm (freshActId (import_scene_fbx f s)) o)]
    unfold lookupObj at ht
    rw [ht, Option.map_some', if_pos ht']
  refine ⟨freshActId (import_scene_fbx f s), origId, Nat.ne_of_lt hlt, ?_, ?_, hlook, ?_, ?_, ?_⟩
  · rw [heq]
    exact List.mem_append_left _ (List.mem_append_right _ hmemA)
  · rw [heq]
    exact List.mem_append_right _ (List.mem_singleton.mpr rfl)
  · unfold tracksOf
    rw [hlook, ht]
    simp only [Option.map_some', Option.getD_some]
    rw [tracksOfObj_attach]
    rfl
  · intro hmut tr htr
    unfold tracksOf at htr
    rw [hlook] at htr
    simp only [Option.map_some', Option.getD_some] at htr
    rw [tracksOfObj_attach] at htr
    rcases List.mem_append.mp htr with h2 | h2
    · apply hmut
      unfold tracksOf
      rw [ht]
      simpa using h2
    · rcases List.mem_singleton.mp h2 with rfl
      rfl
  · intro dir fs2 s3 g hg
    exact main_output_muted dir fs2 s3 g hg

/-- C9: attaching to a target that has no animation data yet is safe:
`extract_animation` creates the container and the first successful
attachment lands the muted track in it. -/
theorem attach_creates_animation_data (f : FbxFile) (path nm : String) (t : ObjId)
    (s : Scene) (a : ImpObj) (act : ImpAction) (o0 : Obj)
    (hfind : f.objects.find? (fun x => decide (x.otype = ObjType.ARMATURE)) = some a)
    (h1 : a.hasAnimData = true) (hact : a.boundAction = some act)
    (ht : lookupObj s t = some o0)
    (hnoad : o0.animation_data = none) :
    ∃ newId,
      lookupObj (extract_animation f path nm t s).1 t =
        some { o0 with animation_data := some ⟨none, [newTrack nm newId]⟩ } := by
  obtain ⟨origId, hge, hlt, hmemA, heq⟩ := extract_animation_found f path nm t s a act hfind h1 hact
  have ht' : o0.id = t := by
    have := List.find?_some ht
    simpa using this
  refine ⟨freshActId (import_scene_fbx f s), ?_⟩
  rw [heq]
  unfold lookupObj
  rw [lookupObj_map_ite s.objects t
    (attachTrack nm (freshActId (import_scene_fbx f s)))
    (fun o => attachTrack_id nm (freshActId (import_scene_fbx f s)) o)]
  unfold lookupObj at ht
  rw [ht, Option.map_some', if_pos ht']
  unfold attachTrack animation_data_create addTrack
  rw [hnoad]
  simp

/-- C10: when the imported skeletal object has no bound action the target
object is left completely untouched (no track, no animation-data
container) and the scene's objects end exactly as they began, the
imported objects having been removed.  The action collection ends as the
prior collection plus exactly the datablocks the file import itself
created: in particular the `action.copy()` duplicate is never made. -/
theorem no_action_leaves_target_untouched (f : FbxFile) (path nm : String) (t : ObjId)
    (s : Scene) (a : ImpObj)
    (hfind : f.objects.find? (fun x => decide (x.otype = ObjType.ARMATURE)) = some a)
    (hno : a.hasAnimData = false ∨ a.boundAction = none) :
    (extract_animation f path nm t s).1.objects = s.objects ∧
    lookupObj (extract_animation f path nm t s).1 t = lookupObj s t ∧
    tracksOf (extract_animation f path nm t s).1 t = tracksOf s t ∧
    (extract_animation f path nm t s).1.actions = s.actions ++ importedActs f s := by
  have heq := extract_animation_noact f path nm t s a hfind hno
  rw [heq]
  exact ⟨rfl, rfl, rfl, rfl⟩

/-! ### Concrete inputs for witnesses and counterexamples -/

/-- A target skeleton with no animation data, as a freshly imported
character is. -/
def targetObj : Obj := ⟨1, "Swimmer", ObjType.ARMATURE, none, none, 0, [], []⟩

/-- A scene holding only the target skeleton. -/
def oneArmScene : Scene := ⟨[targetObj], [], [], none⟩

/-- The armature inside `demoAnim`. -/
def animImp : ImpObj := ⟨"Armature", ObjType.ARMATURE, none, true, some ⟨"mixamo", 5⟩, 0, []⟩

/-- An imported armature with animation data but no bound action. -/
def noActImp : ImpObj := ⟨"Armature", ObjType.ARMATURE, none, true, none, 0, []⟩

/-- An animation file whose armature has no bound action. -/
def noActFile : FbxFile := ⟨[noActImp]⟩

/-- An animation file containing no skeletal object at all. -/
def meshOnlyFile : FbxFile := ⟨[⟨"Cube", ObjType.MESH, none, false, none, 6, []⟩]⟩

/-- A directory with the character and one bound-action-less animation. -/
def fsNoAct : FS := ⟨[("d/character.fbx", demoChar), ("d/swim_dive.fbx", noActFile)]⟩

/-- Witness for C2 on concrete inputs. -/
theorem extract_attaches_muted_track_witness :
    ((demoAnim.objects.find? (fun x => decide (x.otype = ObjType.ARMATURE)) = some animImp) ∧
     animImp.hasAnimData = true ∧
     animImp.boundAction = some (⟨"mixamo", 5⟩ : ImpAction) ∧
     lookupObj oneArmScene 1 = some targetObj) ∧
    ∃ newId origId, origId ≠ newId ∧
      tracksOf (extract_animation demoAnim "d/swim_freestyle.fbx" "Swimming" 1 oneArmScene).1 1 =
        tracksOf oneArmScene 1 ++ [⟨"Swimming", true, [⟨"Swimming", 0, newId⟩]⟩] := by
  refine ⟨⟨rfl, rfl, rfl, rfl⟩, ?_⟩
  obtain ⟨newId, origId, hne, _, _, _, htr, _, _⟩ :=
    extract_attaches_muted_track demoAnim "d/swim_freestyle.fbx" "Swimming" 1 oneArmScene
      animImp ⟨"mixamo", 5⟩ targetObj rfl rfl rfl rfl
  exact ⟨newId, origId, hne, htr⟩

/-- Witness for C9 on concrete inputs: the target starts with no
animation data and ends with a container holding the one muted track. -/
theorem attach_creates_animation_data_witness :
    ((demoAnim.objects.find? (fun x => decide (x.otype = ObjType.ARMATURE)) = some animImp) ∧
     animImp.hasAnimData = true ∧
     animImp.boundAction = some (⟨"mixamo", 5⟩ : ImpAction) ∧
     lookupObj oneArmScene 1 = some targetObj ∧
     targetObj.animation_data = none) ∧
    ∃ newId,
      lookupObj (extract_animation demoAnim "d/swim_freestyle.fbx" "Swimming" 1 oneArmScene).1 1 =
        some { targetObj with animation_data := some ⟨none, [newTrack "Swimming" newId]⟩ } := by
  refine ⟨⟨rfl, rfl, rfl, rfl, rfl⟩, ?_⟩
  exact attach_creates_animation_data demoAnim "d/swim_freestyle.fbx" "Swimming" 1 oneArmScene
    animImp ⟨"mixamo", 5⟩ targetObj rfl rfl rfl rfl rfl

/-- Witness for C10 on concrete inputs: the target object and the action
collection (empty before, empty after — no duplicate is made) are both
unchanged. -/
theorem no_action_leaves_target_untouched_witness :
    ((noActFile.objects.find? (fun x => decide (x.otype = ObjType.ARMATURE)) = some noActImp) ∧
     (noActImp.hasAnimData = false ∨ noActImp.boundAction = none)) ∧
    (extract_animation noActFile "d/swim_dive.fbx" "Diving" 1 oneArmScene).1.objects
      = oneArmScene.objects ∧
    lookupObj (extract_animation noActFile "d/swim_dive.fbx" "Diving" 1 oneArmScene).1 1
      = lookupObj oneArmScene 1 ∧
    (extract_animation noActFile "d/swim_dive.fbx" "Diving" 1 oneArmScene).1.actions
      = oneArmScene.actions ++ importedActs noActFile oneArmScene ∧
    (extract_animation noActFile "d/swim_dive.fbx" "Diving" 1 oneArmScene).1.actions = [] := by
  refine ⟨⟨rfl, Or.inr rfl⟩, ?_, ?_, ?_, rfl⟩
  · exact (no_action_leaves_target_untouched noActFile "d/swim_dive.fbx" "Diving" 1 oneArmScene
      noActImp rfl (Or.inr rfl)).1
  · exact (no_action_leaves_target_untouched noActFile "d/swim_dive.fbx" "Diving" 1 oneArmScene
      noActImp rfl (Or.inr rfl)).2.1
  · exact (no_action_leaves_target_untouched noActFile "d/swim_dive.fbx" "Diving" 1 oneArmScene
      noActImp rfl (Or.inr rfl)).2.2.2

/-- Counterexample to C4 as stated: with an imported armature that has no
bound action, `extract_animation` prints nothing at all — in particular
no warning is logged — and the whole run's log contains no warning line
either, while the run still completes. -/
theorem no_bound_action_warning_cex :
    (extract_animation noActFile "d/swim_dive.fbx" "Diving" 1 oneArmScene).2 = [] ∧
    (main "d" fsNoAct emptyScene).log =
      ["Importing character: d/character.fbx",
       "Skipping (not found): swim_freestyle",
       "Skipping (not found): swim_breaststroke",
       "Skipping (not found): swim_backstroke",
       "Skipping (not found): swim_butterfly",
       "Importing animation: swim_dive",
       "Skipping (not found): swim_turn_flip",
       "Skipping (not found): swim_turn_open",
       "Optimizing model...",
       "Exporting to: d/swimmer.glb",
       "Exported: d/swimmer.glb",
       "Done!"] ∧
    (main "d" fsNoAct emptyScene).exitCode = 0 := ⟨rfl, rfl, rfl⟩

/-- C4 amended: for an entry whose imported skeletal object has no bound
action, no warning (indeed nothing) is logged — the entry is skipped
silently — no track is created on the target, and the run nevertheless
continues and completes successfully. -/
theorem no_bound_action_silent (f : FbxFile) (path nm : String) (t : ObjId)
    (s : Scene) (a : ImpObj) (dir : String) (fs : FS) (s2 : Scene) (cf : FbxFile)
    (hfind : f.objects.find? (fun x => decide (x.otype = ObjType.ARMATURE)) = some a)
    (hno : a.hasAnimData = false ∨ a.boundAction = none)
    (hcf : FS.lookup fs (pathJoin dir "character.fbx") = some cf)
    (harm : ∃ x ∈ cf.objects, x.otype = ObjType.ARMATURE) :
    (extract_animation f path nm t s).2 = [] ∧
    tracksOf (extract_animation f path nm t s).1 t = tracksOf s t ∧
    (main dir fs s2).exitCode = 0 ∧ (main dir fs s2).output.isSome = true := by
  have heq := extract_animation_noact f path nm t s a hfind hno
  refine ⟨by rw [heq], by rw [heq]; rfl, (main_completes dir fs s2 cf hcf harm).1,
    (main_completes dir fs s2 cf hcf harm).2.1⟩

/-- Witness for the amended C4 on concrete inputs. -/
theorem no_bound_action_silent_witness :
    ((noActFile.objects.find? (fun x => decide (x.otype = ObjType.ARMATURE)) = some noActImp) ∧
     (noActImp.hasAnimData = false ∨ noActImp.boundAction = none) ∧
     FS.lookup fsNoAct (pathJoin "d" "character.fbx") = some demoChar) ∧
    (extract_animation noActFile "d/swim_dive.fbx" "Diving" 1 oneArmScene).2 = [] ∧
    (main "d" fsNoAct emptyScene).exitCode = 0 := by
  have h := no_bound_action_silent noActFile "d/swim_dive.fbx" "Diving" 1 oneArmScene
    noActImp "d" fsNoAct emptyScene demoChar rfl (Or.inr rfl) rfl (by decide)
  exact ⟨⟨rfl, Or.inr rfl, rfl⟩, h.1, h.2.2.1⟩

/-- Counterexample to C3 as stated: when the imported file contains no
skeletal object, `extract_animation` returns before its removal loop, so
the imported mesh is NOT removed and stays in the scene beside the
target. -/
theorem cleanup_skipped_cex :
    (extract_animation meshOnlyFile "d/swim_freestyle.fbx" "Swimming" 1 oneArmScene).1.objects.map
      Obj.name = ["Swimmer", "Cube"] := rfl

/-- Every action reference of the scene's objects lies below the next
fresh action id (true of any scene whose references point at existing
datablocks). -/
def Scene.actRefsBounded (s : Scene) : Prop :=
  ∀ r ∈ (s.objects.map Obj.actionRefs).flatten, r < freshActId s

/-- C3 amended: when the imported file contains a skeletal object, every
object imported from the file is removed in both branches (with or
without a bound action): the scene's object ids end exactly as they
began.  When the file contains no skeletal object the early return skips
the removal loop (see the counterexample).  The original, pre-duplication
action is NOT discarded during the entry: it remains in the action
collection as an orphan, with zero users. -/
theorem cleanup_amended (f : FbxFile) (path nm : String) (t : ObjId) (s : Scene)
    (a : ImpObj)
    (hfind : f.objects.find? (fun x => decide (x.otype = ObjType.ARMATURE)) = some a)
    (hbnd : Scene.actRefsBounded s) :
    ((extract_animation f path nm t s).1.objects.map Obj.id = s.objects.map Obj.id) ∧
    (∀ act, a.hasAnimData = true → a.boundAction = some act →
      ∃ origId,
        (origId, (⟨act.name, act.keyframes⟩ : Action)) ∈ (extract_animation f path nm t s).1.actions ∧
        actionUsers (extract_animation f path nm t s).1 origId = 0) := by
  by_cases hc : a.hasAnimData = true ∧ a.boundAction.isSome = true
  · obtain ⟨h1, hs⟩ := hc
    obtain ⟨act0, hact0⟩ := Option.isSome_iff_exists.mp hs
    obtain ⟨origId, hge, hlt, hmemA, heq⟩ :=
      extract_animation_found f path nm t s a act0 hfind h1 hact0
    have hGid : ∀ o : Obj,
        ((fun o => if o.id = t then attachTrack nm (freshActId (import_scene_fbx f s)) o else o) o).id
          = o.id := by
      intro o
      by_cases h : o.id = t
      · simp [h, attachTrack_id]
      · simp [h]
    constructor
    · rw [heq]
      show (s.objects.map _).map Obj.id = s.objects.map Obj.id
      rw [List.map_map]
      exact List.map_congr_left (fun o _ => hGid o)
    · intro act h1b hactb
      have hacteq : act = act0 := by
        rw [hact0] at hactb
        exact (Option.some.injEq _ _ ▸ hactb).symm ▸ rfl
      subst hacteq
      refine ⟨origId, ?_, ?_⟩
      · rw [heq]
        exact List.mem_append_left _ (List.mem_append_right _ hmemA)
      · rw [heq]
        unfold actionUsers
        rw [List.count_eq_zero]
        intro hmem
        rw [List.mem_flatten] at hmem
        obtain ⟨lst, hlst, hr⟩ := hmem
        rcases List.mem_map.mp hlst with ⟨o1, ho1, rfl⟩
        rcases List.mem_map.mp ho1 with ⟨o0, ho0, rfl⟩
        by_cases hid : o0.id = t
        · rw [if_pos hid, actionRefs_attach] at hr
          rcases List.mem_append.mp hr with h2 | h2
          · have : origId < freshActId s :=
              hbnd origId (List.mem_flatten.mpr
                ⟨Obj.actionRefs o0, List.mem_map_of_mem _ ho0, h2⟩)
            exact absurd this (Nat.not_lt.mpr hge)
          · rcases List.mem_singleton.mp h2 with h3
            exact absurd h3 (Nat.ne_of_lt hlt)
        · rw [if_neg hid] at hr
          have : origId < freshActId s :=
            hbnd origId (List.mem_flatten.mpr
              ⟨Obj.actionRefs o0, List.mem_map_of_mem _ ho0, hr⟩)
          exact absurd this (Nat.not_lt.mpr hge)
  · have hno : a.hasAnimData = false ∨ a.boundAction = none := by
      by_cases h1 : a.hasAnimData = true
      · right
        cases hb : a.boundAction with
        | none => rfl
        | some x => exact absurd ⟨h1, by rw [hb]; rfl⟩ hc
      · left
        exact Bool.not_eq_true _ ▸ (Bool.eq_false_iff.mpr h1)
    have heq := extract_animation_noact f path nm t s a hfind hno
    constructor
    · rw [heq]
    · intro act h1b hactb
      exact absurd ⟨h1b, by rw [hactb]; rfl⟩ hc

/-- Witness for the amended C3 on concrete inputs. -/
theorem cleanup_amended_witness :
    ((demoAnim.objects.find? (fun x => decide (x.otype = ObjType.ARMATURE)) = some animImp) ∧
     Scene.actRefsBounded oneArmScene) ∧
    ((extract_animation demoAnim "d/swim_freestyle.fbx" "Swimming" 1 oneArmScene).1.objects.map
      Obj.id = oneArmScene.objects.map Obj.id) ∧
    ∃ origId,
      (origId, (⟨"mixamo", 5⟩ : Action)) ∈
        (extract_animation demoAnim "d/swim_freestyle.fbx" "Swimming" 1 oneArmScene).1.actions ∧
      actionUsers (extract_animation demoAnim "d/swim_freestyle.fbx" "Swimming" 1 oneArmScene).1
        origId = 0 := by
  have hbnd : Scene.actRefsBounded oneArmScene := by
    unfold Scene.actRefsBounded
    decide
  have h := cleanup_amended demoAnim "d/swim_freestyle.fbx" "Swimming" 1 oneArmScene
    animImp rfl hbnd
  exact ⟨⟨rfl, hbnd⟩, h.1, h.2 ⟨"mixamo", 5⟩ rfl rfl⟩


/-! ### The optimize phase -/

lemma applyModifierByName_id (nm : String) (o : Obj) :
    (applyModifierByName nm o).id = o.id := by
  unfold applyModifierByName
  cases o.modifiers.find? (fun m => decide (m.name = nm)) <;> rfl

lemma optimizeMeshObj_id (o : Obj) : (optimizeMeshObj o).id = o.id := by
  unfold optimizeMeshObj
  have hfold : ∀ (ms : List Modifier) (o0 : Obj),
      ((ms.foldl (fun acc m =>
        if decide (¬ m.mtype = "ARMATURE") then applyModifierByName m.name acc else acc) o0)).id
        = o0.id := by
    intro ms
    induction ms with
    | nil => intro o0; rfl
    | cons m rest ih =>
        intro o0
        simp only [List.foldl_cons]
        by_cases hm : m.mtype = "ARMATURE"
        · rw [if_neg (by simp [hm]), ih]
        · rw [if_pos (by simp [hm]), ih, applyModifierByName_id]
  simp only
  split
  · rw [applyModifierByName_id]
    simp only
    exact hfold _ o
  · exact hfold _ o

lemma applyFold_spec :
    ∀ (rest kept : List Modifier) (o : Obj),
      o.modifiers = kept ++ rest →
      (((kept ++ rest).map Modifier.name).Nodup) →
      (∀ m ∈ kept, m.mtype = "ARMATURE") →
      (rest.foldl (fun acc m =>
        if decide (¬ m.mtype = "ARMATURE") then applyModifierByName m.name acc else acc) o) =
        { o with modifiers := kept ++ rest.filter (fun m => decide (m.mtype = "ARMATURE")),
                 applied := o.applied ++ rest.filter (fun m => decide (¬ m.mtype = "ARMATURE")) } := by
  intro rest
  induction rest with
  | nil =>
      intro kept o hmod hnd hk
      simp only [List.foldl_nil, List.filter_nil, List.append_nil]
      have hkept : kept = o.modifiers := by rw [hmod, List.append_nil]
      rw [hkept]
  | cons m rest ih =>
      intro kept o hmod hnd hk
      simp only [List.foldl_cons]
      by_cases hm : m.mtype = "ARMATURE"
      · rw [if_neg (by simp [hm])]
        have hmod' : o.modifiers = (kept ++ [m]) ++ rest := by
          rw [hmod, List.append_assoc, List.singleton_append]
        have hnd' : (((kept ++ [m]) ++ rest).map Modifier.name).Nodup := by
          rw [List.append_assoc, List.singleton_append]
          exact hnd
        have hk' : ∀ x ∈ kept ++ [m], x.mtype = "ARMATURE" := by
          intro x hx
          rcases List.mem_append.mp hx with h | h
          · exact hk x h
          · rcases List.mem_singleton.mp h with rfl
            exact hm
        rw [ih (kept ++ [m]) o hmod' hnd' hk']
        simp [List.filter_cons, hm, List.append_assoc]
      · rw [if_pos (by simp [hm])]
        have hdisj : ∀ k ∈ kept, ¬ (decide (k.name = m.name)) = true := by
          rw [List.map_append, List.nodup_append] at hnd
          intro k hkk
          simp only [decide_eq_true_eq]
          intro he
          exact hnd.2.2 (List.mem_map.mpr ⟨k, hkk, rfl⟩)
            (he ▸ List.mem_map.mpr ⟨m, List.mem_cons_self m rest, rfl⟩)
        have happly : applyModifierByName m.name o =
            { o with modifiers := kept ++ rest, applied := o.applied ++ [m] } := by
          unfold applyModifierByName
          rw [hmod, find?_append_of_none _ _ _ (List.find?_eq_none.mpr hdisj),
            List.find?_cons_of_pos _ (by simp)]
          rw [List.eraseP_append_right _ hdisj, List.eraseP_cons_of_pos (by simp)]
        rw [happly]
        have hnd'' : ((kept ++ rest).map Modifier.name).Nodup := by
          apply List.Nodup.sublist _ hnd
          apply List.Sublist.map
          exact List.Sublist.append_left (List.sublist_cons_self m rest) kept
        rw [ih kept { o with modifiers := kept ++ rest, applied := o.applied ++ [m] }
          rfl hnd'' hk]
        simp [List.filter_cons, hm, List.append_assoc]

lemma uniqueModName_of_not_mem (nm : String) (ms : List Modifier)
    (h : nm ∉ ms.map Modifier.name) : uniqueModName nm ms = nm := by
  unfold uniqueModName
  rw [if_neg]
  intro hc
  rw [List.any_eq_true] at hc
  obtain ⟨m, hmm, he⟩ := hc
  simp only [decide_eq_true_eq] at he
  exact h (List.mem_map.mpr ⟨m, hmm, he⟩)

lemma modifyFirstNamed_append (nm : String) (f : Modifier → Modifier) (l1 l2 : List Modifier)
    (h : ∀ x ∈ l1, ¬ x.name = nm) :
    modifyFirstNamed nm f (l1 ++ l2) = l1 ++ modifyFirstNamed nm f l2 := by
  induction l1 with
  | nil => rfl
  | cons x t ih =>
      show modifyFirstNamed nm f (x :: (t ++ l2)) = x :: (t ++ modifyFirstNamed nm f l2)
      rw [modifyFirstNamed, if_neg (h x (List.mem_cons_self x t)),
        ih (fun y hy => h y (List.mem_cons_of_mem x hy))]

lemma optimizeMeshObj_spec (o : Obj)
    (hnames : (o.modifiers.map Modifier.name).Nodup)
    (hdec : "Decimate" ∉
      (o.modifiers.filter (fun m => decide (m.mtype = "ARMATURE"))).map Modifier.name) :
    optimizeMeshObj o =
      { o with
        modifiers := o.modifiers.filter (fun m => decide (m.mtype = "ARMATURE")),
        applied := o.applied ++ o.modifiers.filter (fun m => decide (¬ m.mtype = "ARMATURE")) ++
          (if 10000 < o.polygons then [(⟨"Decimate", "DECIMATE", 1/2⟩ : Modifier)] else []) } := by
  unfold optimizeMeshObj
  have h1 := applyFold_spec o.modifiers [] o (by simp) (by simpa using hnames)
    (by intro m hmm; cases hmm)
  simp only [List.nil_append] at h1
  rw [h1]
  simp only
  have harm : ∀ x ∈ o.modifiers.filter (fun m => decide (m.mtype = "ARMATURE")),
      ¬ x.name = "Decimate" := by
    intro x hx he
    exact hdec (he ▸ List.mem_map.mpr ⟨x, hx, rfl⟩)
  by_cases hp : 10000 < o.polygons
  · rw [if_pos hp, if_pos hp]
    rw [uniqueModName_of_not_mem _ _ hdec]
    rw [modifyFirstNamed_append _ _ _ _ harm]
    unfold modifyFirstNamed
    rw [if_pos rfl]
    have hdisj2 : ∀ x ∈ o.modifiers.filter (fun m => decide (m.mtype = "ARMATURE")),
        ¬ (decide (x.name = "Decimate")) = true := by
      intro x hx
      simp only [decide_eq_true_eq]
      exact harm x hx
    unfold applyModifierByName
    simp only
    rw [find?_append_of_none _ _ _ (List.find?_eq_none.mpr hdisj2),
      List.find?_cons_of_pos _ (by simp)]
    rw [List.eraseP_append_right _ hdisj2, List.eraseP_cons_of_pos (by simp)]
    simp [List.append_assoc]
  · rw [if_neg hp, if_neg hp]
    simp

lemma find?_obj_of_nodup (l : List Obj) (o : Obj) (hmem : o ∈ l)
    (hnd : (l.map Obj.id).Nodup) : l.find? (fun x => decide (x.id = o.id)) = some o := by
  induction l with
  | nil => cases hmem
  | cons x t ih =>
      rw [List.map_cons, List.nodup_cons] at hnd
      rcases List.mem_cons.mp hmem with h | h
      · subst h
        exact List.find?_cons_of_pos _ (by simp)
      · have hx : ¬ x.id = o.id := fun he => hnd.1 (he ▸ List.mem_map.mpr ⟨o, h, rfl⟩)
        rw [List.find?_cons_of_neg _ (by simp [hx])]
        exact ih h hnd.2

lemma find?_map_ite_ne (L : List Obj) (i j : ObjId) (g : Obj → Obj)
    (hg : ∀ o, (g o).id = o.id) (hne : ¬ j = i) :
    List.find? (fun o => decide (o.id = i)) (L.map (fun o => if o.id = j then g o else o)) =
      List.find? (fun o => decide (o.id = i)) L := by
  have hfun : ((fun o => decide (o.id = i)) ∘ fun o => if o.id = j then g o else o)
      = (fun o : Obj => decide (o.id = i)) := by
    funext o
    by_cases h : o.id = j <;> simp [Function.comp, h, hg]
  rw [List.find?_map, hfun]
  cases hf : List.find? (fun o => decide (o.id = i)) L with
  | none => rfl
  | some o =>
      have hoi : o.id = i := by simpa using List.find?_some hf
      rw [Option.map_some']
      rw [if_neg (by rw [hoi]; exact fun he => hne he.symm)]

lemma optimize_fold_lookup_ne :
    ∀ (ml : List Obj) (s0 : Scene) (i : ObjId), i ∉ ml.map Obj.id →
      lookupObj (ml.foldl (fun st m =>
        let st1 : Scene := { st with active := some m.id }
        let st2 := updateObj m.id optimizeMeshObj st1
        { st2 with selected := st2.selected.filter (fun k => decide (¬ k = m.id)) }) s0) i =
      lookupObj s0 i := by
  intro ml
  induction ml with
  | nil => intro s0 i _; rfl
  | cons m rest ih =>
      intro s0 i hni
      rw [List.map_cons] at hni
      have hne : ¬ m.id = i := fun he => hni (he ▸ List.mem_cons_self _ _)
      have hrest : i ∉ rest.map Obj.id := fun hm => hni (List.mem_cons_of_mem _ hm)
      simp only [List.foldl_cons]
      rw [ih _ i hrest]
      unfold lookupObj updateObj
      simp only
      exact find?_map_ite_ne s0.objects i m.id optimizeMeshObj optimizeMeshObj_id hne

lemma optimize_fold_ids :
    ∀ (ml : List Obj) (s0 : Scene),
      ((ml.foldl (fun st m =>
        let st1 : Scene := { st with active := some m.id }
        let st2 := updateObj m.id optimizeMeshObj st1
        { st2 with selected := st2.selected.filter (fun k => decide (¬ k = m.id)) }) s0)).objects.map
        Obj.id = s0.objects.map Obj.id := by
  intro ml
  induction ml with
  | nil => intro s0; rfl
  | cons m rest ih =>
      intro s0
      simp only [List.foldl_cons]
      rw [ih]
      unfold updateObj
      simp only
      rw [List.map_map]
      apply List.map_congr_left
      intro o _
      by_cases h : o.id = m.id
      · simp [Function.comp, h, optimizeMeshObj_id]
      · simp [Function.comp, h]

lemma optimize_step_lookup (st : Scene) (m0 : Obj) (o : Obj)
    (ho : lookupObj st m0.id = some o) :
    lookupObj { updateObj m0.id optimizeMeshObj { st with active := some m0.id } with
        selected := (updateObj m0.id optimizeMeshObj
          { st with active := some m0.id }).selected.filter
            (fun k => decide (¬ k = m0.id)) } m0.id = some (optimizeMeshObj o) := by
  have hoid : o.id = m0.id := by
    have h2 := List.find?_some ho
    simpa using h2
  unfold lookupObj updateObj
  simp only
  rw [lookupObj_map_ite _ _ optimizeMeshObj optimizeMeshObj_id]
  unfold lookupObj at ho
  rw [ho, Option.map_some', if_pos hoid]

/-- Behaviour of `optimize_model` at one mesh of the snapshot. -/
lemma optimize_model_lookup (armId : ObjId) (s : Scene) (mesh : Obj)
    (hmem : mesh ∈ s.objects) (hpar : mesh.parent = some armId)
    (hty : mesh.otype = ObjType.MESH)
    (hids : (s.objects.map Obj.id).Nodup) :
    lookupObj (optimize_model armId s) mesh.id = some (optimizeMeshObj mesh) := by
  have hp : (fun o : Obj => decide (o.parent = some armId ∧ o.otype = ObjType.MESH)) mesh
      = true := by simp [hpar, hty]
  have hmf : mesh ∈ s.objects.filter
      (fun o => decide (o.parent = some armId ∧ o.otype = ObjType.MESH)) :=
    List.mem_filter.mpr ⟨hmem, hp⟩
  obtain ⟨l1, l2, hsplit⟩ := List.append_of_mem hmf
  have hsub : List.Sublist ((s.objects.filter
      (fun o => decide (o.parent = some armId ∧ o.otype = ObjType.MESH))).map Obj.id)
      (s.objects.map Obj.id) := List.Sublist.map _ (List.filter_sublist _)
  have hndf := List.Nodup.sublist hsub hids
  rw [hsplit, List.map_append, List.map_cons, List.nodup_append] at hndf
  obtain ⟨hnd1, hnd2, hdisj⟩ := hndf
  have hni1 : mesh.id ∉ l1.map Obj.id := fun hm =>
    hdisj hm (List.mem_cons_self _ _)
  have hni2 : mesh.id ∉ l2.map Obj.id := (List.nodup_cons.mp hnd2).1
  unfold optimize_model
  simp only
  rw [hsplit, List.foldl_append, List.foldl_cons]
  rw [optimize_fold_lookup_ne l2 _ mesh.id hni2]
  have hlook1 : lookupObj (l1.foldl (fun st m =>
      let st1 : Scene := { st with active := some m.id }
      let st2 := updateObj m.id optimizeMeshObj st1
      { st2 with selected := st2.selected.filter (fun k => decide (¬ k = m.id)) }) s)
      mesh.id = some mesh := by
    rw [optimize_fold_lookup_ne l1 s mesh.id hni1]
    exact find?_obj_of_nodup s.objects mesh hmem hids
  exact optimize_step_lookup _ mesh mesh hlook1

/-- C6: in the optimize phase, for every mesh parented to the target
skeleton (given host-unique modifier names, and no armature modifier
confusingly named "Decimate"): every non-armature modifier of its stack
is applied destructively, the armature modifier is never applied, and a
decimate modifier with ratio 0.5 is added and applied exactly when the
polygon count exceeds 10000; at or below the threshold no decimation
happens. -/
theorem optimize_modifier_policy (armId : ObjId) (s : Scene) (mesh : Obj)
    (hmem : mesh ∈ s.objects) (hpar : mesh.parent = some armId)
    (hty : mesh.otype = ObjType.MESH)
    (hids : (s.objects.map Obj.id).Nodup)
    (hnames : (mesh.modifiers.map Modifier.name).Nodup)
    (hdec : "Decimate" ∉
      (mesh.modifiers.filter (fun m => decide (m.mtype = "ARMATURE"))).map Modifier.name) :
    ∃ m2, lookupObj (optimize_model armId s) mesh.id = some m2 ∧
      m2.modifiers = mesh.modifiers.filter (fun m => decide (m.mtype = "ARMATURE")) ∧
      m2.applied = mesh.applied ++
        mesh.modifiers.filter (fun m => decide (¬ m.mtype = "ARMATURE")) ++
        (if 10000 < mesh.polygons then [(⟨"Decimate", "DECIMATE", 1/2⟩ : Modifier)] else []) ∧
      (∀ m ∈ m2.applied, m ∉ mesh.applied → ¬ m.mtype = "ARMATURE") ∧
      (mesh.polygons ≤ 10000 →
        m2.applied = mesh.applied ++
          mesh.modifiers.filter (fun m => decide (¬ m.mtype = "ARMATURE"))) := by
  have hl := optimize_model_lookup armId s mesh hmem hpar hty hids
  have hspec := optimizeMeshObj_spec mesh hnames hdec
  refine ⟨optimizeMeshObj mesh, hl, ?_, ?_, ?_, ?_⟩
  · rw [hspec]
  · rw [hspec]
  · rw [hspec]
    intro m hm hnotold
    simp only at hm
    rcases List.mem_append.mp hm with h1 | h1
    · rcases List.mem_append.mp h1 with h2 | h2
      · exact absurd h2 hnotold
      · have h3 := List.of_mem_filter h2
        simpa using h3
    · split at h1
      · rcases List.mem_singleton.mp h1 with rfl
        simp
      · cases h1
  · intro hle
    rw [hspec]
    simp only
    rw [if_neg (Nat.not_lt.mpr hle), List.append_nil]

/-- A mesh above the decimation threshold with an armature and a
non-armature modifier. -/
def witnessMesh : Obj :=
  ⟨2, "Body", ObjType.MESH, some 1, none, 20000,
   [⟨"Armature", "ARMATURE", 1⟩, ⟨"Subsurf", "SUBSURF", 1⟩], []⟩

/-- A scene with the target skeleton and one parented mesh. -/
def optScene : Scene := ⟨[targetObj, witnessMesh], [], [], none⟩

/-- Witness for C6 on a concrete scene: the Subsurf modifier is baked,
the armature modifier is kept unapplied, and the 20000-polygon mesh gets
a ratio-0.5 decimate modifier applied. -/
theorem optimize_modifier_policy_witness :
    (witnessMesh ∈ optScene.objects ∧ witnessMesh.parent = some 1 ∧
     witnessMesh.otype = ObjType.MESH ∧
     (optScene.objects.map Obj.id).Nodup ∧
     (witnessMesh.modifiers.map Modifier.name).Nodup ∧
     "Decimate" ∉ (witnessMesh.modifiers.filter
        (fun m => decide (m.mtype = "ARMATURE"))).map Modifier.name) ∧
    ∃ m2, lookupObj (optimize_model 1 optScene) witnessMesh.id = some m2 ∧
      m2.modifiers = [⟨"Armature", "ARMATURE", 1⟩] ∧
      m2.applied = [(⟨"Subsurf", "SUBSURF", 1⟩ : Modifier),
                    (⟨"Decimate", "DECIMATE", 1/2⟩ : Modifier)] := by
  obtain ⟨m2, hl, hmods, happ, _, _⟩ :=
    optimize_modifier_policy 1 optScene witnessMesh (by decide) rfl rfl
      (by decide) (by decide) (by decide)
  refine ⟨⟨by decide, rfl, rfl, by decide, by decide, by decide⟩, m2, hl, ?_, ?_⟩
  · rw [hmods]
    rfl
  · rw [happ]
    rfl

end BlenderExport
